import Mathlib

/-!
Verification of the Tracefinity geometry/configuration frontend.

This file gives a shallow embedding, in Lean 4, of the data model and the
operations of the Tracefinity repository that the specification talks
about:

* the TypeScript types of `frontend/src/types` (Point, FingerHole,
  Polygon, BinConfig);
* the auto-sizing and recentring logic of
  `frontend/src/app/configure/[id]/page.tsx` (the `load` function);
* the debounced generation state machine of the same page
  (`doGenerate`);
* the dimension display of the same page and the z-height table of the
  repository's STL-generation document;
* the cutout creation and resize clamping of
  `frontend/src/components/LayoutEditor.tsx`;
* spec-modelled definitions for the parts of the geometry backend
  (magnet holes, cutout-depth clamping, bin splitting, artifact cache)
  whose implementation is not part of the frontend sources.

JavaScript `number` arithmetic is modelled exactly over `ℚ`; all the
constants involved are decimal literals, so every computation the
frontend performs on them is exact in `ℚ` as well.
-/

namespace Tracefinity

/-- A 2D point, from `frontend/src/types` (`interface Point`).
Millimetre or pixel coordinates depending on the stage. -/
structure Point where
  x : ℚ
  y : ℚ
deriving DecidableEq, Repr

/-- Cutout shapes, from `frontend/src/types` (`type CutoutShape`). -/
inductive ShapeKind where
  | circle
  | square
  | rectangle
deriving DecidableEq, Repr

/-- A finger hole / cutout, from `frontend/src/types`
(`interface FingerHole`): centre, radius (half-width for squares),
optional width/height for rectangles, rotation in degrees.
The string id is irrelevant to the geometry and is omitted. -/
structure FingerHole where
  x : ℚ
  y : ℚ
  radius : ℚ
  rotation : ℚ
  shape : Option ShapeKind
  width : Option ℚ
  height : Option ℚ
deriving DecidableEq, Repr

/-- A tool outline, from `frontend/src/types` (`interface Polygon`):
an exterior ring of points, a label, a list of finger holes, and the
optional interior rings (`interior_rings?: Point[][]`) that the polygon
renderers read (`polygonPathData(poly.points, poly.interior_rings)` in
`PolygonEditor` and `LayoutEditor`). -/
structure Polygon where
  points : List Point
  label : String
  finger_holes : List FingerHole
  interior_rings : Option (List (List Point))
deriving DecidableEq, Repr

/-- The bin configuration, from `frontend/src/types`
(`interface BinConfig`), together with the `bed_size` field that
`BinConfigurator` reads from it. -/
structure BinConfig where
  grid_x : ℕ
  grid_y : ℕ
  height_units : ℕ
  magnets : Bool
  stacking_lip : Bool
  wall_thickness : ℚ
  cutout_depth : ℚ
  cutout_clearance : ℚ
  bed_size : ℚ
deriving DecidableEq, Repr

/-! ## Z-heights and the reported bin height (claim C1)

`ConfigurePage` displays
`Height: {config.height_units * 7 + 5 + (config.stacking_lip ? 4.4 : 0)}mm`.
The repository's STL-generation document places the z-reference heights
at: base top `4.75`, wall top `height_units * 7`, stacking lip top
`wall top + 4.4`. -/

/-- The bin height shown in the Dimensions panel of
`frontend/src/app/configure/[id]/page.tsx`. -/
def reportedHeight (cfg : BinConfig) : ℚ :=
  cfg.height_units * 7 + 5 + (if cfg.stacking_lip then (4.4 : ℚ) else 0)

/-- Base top z, from the STL-generation document: `4.75` mm
(three tapered layers 2.15 + 1.8 + 0.8). -/
def baseTopZ : ℚ := 4.75

/-- Wall top z, from the STL-generation document:
`height_units * 7`. -/
def wallTopZ (cfg : BinConfig) : ℚ := cfg.height_units * 7

/-- Stacking lip extra height, from the STL-generation document:
`4.4` mm (1.9 + 1.8 + 0.7), present exactly when the lip is enabled. -/
def lipTopZ (cfg : BinConfig) : ℚ :=
  wallTopZ cfg + (if cfg.stacking_lip then (4.4 : ℚ) else 0)

/-- Scenario A configuration: grid 2x2, height_units = 4, no magnets,
no stacking lip, default wall/cutout numbers from `DEFAULT_CONFIG`. -/
def cfgA : BinConfig :=
  { grid_x := 2, grid_y := 2, height_units := 4, magnets := false,
    stacking_lip := false, wall_thickness := 1.6, cutout_depth := 20,
    cutout_clearance := 1.0, bed_size := 180 }

/-- Scenario A configuration with the stacking lip enabled. -/
def cfgLip : BinConfig := { cfgA with stacking_lip := true }

/-! ## Auto-sizing and recentring (claims C2, C3, C5)

Embeds the `load` function of
`frontend/src/app/configure/[id]/page.tsx`: from the session's polygons
(pixel coordinates) and scale factor it computes the tool bounding box
in millimetres, the grid dimensions, and the recentring offset, then
translates every polygon's points and finger holes by that offset. -/

/-- `const clearance = 1.0` in `load`. -/
def clearanceConst : ℚ := 1.0

/-- `const wallThickness = 1.6` in `load`. -/
def wallConst : ℚ := 1.6

/-- `s.polygons.flatMap(p => p.points)` in `load`. -/
def allPoints (polys : List Polygon) : List Point :=
  (polys.map Polygon.points).flatten

/-- `allPoints.map(p => p.x * sf)` in `load`. -/
def xsOf (sf : ℚ) (polys : List Polygon) : List ℚ :=
  (allPoints polys).map fun p => p.x * sf

/-- `allPoints.map(p => p.y * sf)` in `load`. -/
def ysOf (sf : ℚ) (polys : List Polygon) : List ℚ :=
  (allPoints polys).map fun p => p.y * sf

/-- `Math.min(...xs)` over a list. JavaScript yields `Infinity` on an
empty argument list; `load` only reaches this code with a non-empty
polygon list, and every theorem below assumes the point list non-empty,
so the `[]` branch value is never relied upon. -/
def listMin : List ℚ → ℚ
  | [] => 0
  | a :: t => t.foldl min a

/-- `Math.max(...xs)` over a list; same remark as `listMin`. -/
def listMax : List ℚ → ℚ
  | [] => 0
  | a :: t => t.foldl max a

/-- One axis of the auto-sizer:
`Math.max(1, Math.ceil((dim + 2*clearance + 2*wallThickness) / 42))`. -/
def autoGridAxis (dim clear wall : ℚ) : ℤ :=
  max 1 ⌈(dim + 2 * clear + 2 * wall) / 42⌉

/-- `minX` in `load`. -/
def toolMinX (sf : ℚ) (polys : List Polygon) : ℚ := listMin (xsOf sf polys)

/-- `maxX` in `load`. -/
def toolMaxX (sf : ℚ) (polys : List Polygon) : ℚ := listMax (xsOf sf polys)

/-- `minY` in `load`. -/
def toolMinY (sf : ℚ) (polys : List Polygon) : ℚ := listMin (ysOf sf polys)

/-- `maxY` in `load`. -/
def toolMaxY (sf : ℚ) (polys : List Polygon) : ℚ := listMax (ysOf sf polys)

/-- `gridX = Math.max(1, Math.ceil(neededWidth / 42))` in `load`. -/
def gridXOf (sf : ℚ) (polys : List Polygon) : ℤ :=
  autoGridAxis (toolMaxX sf polys - toolMinX sf polys) clearanceConst wallConst

/-- `gridY = Math.max(1, Math.ceil(neededHeight / 42))` in `load`. -/
def gridYOf (sf : ℚ) (polys : List Polygon) : ℤ :=
  autoGridAxis (toolMaxY sf polys - toolMinY sf polys) clearanceConst wallConst

/-- `offsetX = (targetCenterX - currentCenterX) / sf` in `load`, where
`targetCenterX = gridX * 42 / 2` and
`currentCenterX = (minX + maxX) / 2`. -/
def offsetXOf (sf : ℚ) (polys : List Polygon) : ℚ :=
  ((gridXOf sf polys : ℚ) * 42 / 2 - (toolMinX sf polys + toolMaxX sf polys) / 2) / sf

/-- `offsetY` in `load`, analogous to `offsetXOf`. -/
def offsetYOf (sf : ℚ) (polys : List Polygon) : ℚ :=
  ((gridYOf sf polys : ℚ) * 42 / 2 - (toolMinY sf polys + toolMaxY sf polys) / 2) / sf

/-- The per-polygon update applied by `load` when recentring: the
`...poly` spread copies every field — `interior_rings` included —
unchanged, then overwrites `points` and `finger_holes` with their
translations by `(dx, dy)`; labels, hole shapes and interior rings are
untouched. -/
def translatePoly (dx dy : ℚ) (poly : Polygon) : Polygon :=
  { poly with
    points := poly.points.map fun p => { x := p.x + dx, y := p.y + dy },
    finger_holes := poly.finger_holes.map fun fh => { fh with x := fh.x + dx, y := fh.y + dy } }

/-- `centeredPolygons` in `load`: every polygon translated by the one
recentring offset. -/
def centerPolys (sf : ℚ) (polys : List Polygon) : List Polygon :=
  polys.map (translatePoly (offsetXOf sf polys) (offsetYOf sf polys))

/-- Scenario B tool: a single rectangular outline with bounding box
`120 × 40` mm (at scale factor 1), no finger holes, no interior
rings. -/
def demoPoly : Polygon :=
  { points := [⟨0, 0⟩, ⟨120, 0⟩, ⟨120, 40⟩, ⟨0, 40⟩], label := "tool",
    finger_holes := [], interior_rings := none }

/-- The Scenario B outline with one interior ring (a hole already cut
into the silhouette by the editor). -/
def ringPoly : Polygon :=
  { points := [⟨0, 0⟩, ⟨120, 0⟩, ⟨120, 40⟩, ⟨0, 40⟩], label := "tool",
    finger_holes := [],
    interior_rings := some [[⟨10, 10⟩, ⟨20, 10⟩, ⟨20, 20⟩]] }

/-! ## Bin splitting (claim C4)

`BinConfigurator` warns in the UI when the footprint exceeds the bed:
`needsSplit = config.bed_size > 0 && (binWidth > bed_size || binDepth > bed_size)`.
The splitter itself runs in the geometry backend, which is not part of
the frontend sources; it is modelled below from the spec and from the
repository's STL-generation document (split along 42 mm grid
boundaries; diagonal fit check `(W + H) / sqrt(2) <= bed_size`). -/

/-- The `needsSplit` flag of
`frontend/src/components/BinConfigurator` (UI warning only). -/
def needsSplitUI (cfg : BinConfig) : Bool :=
  0 < cfg.bed_size &&
    ((cfg.grid_x : ℚ) * 42 > cfg.bed_size || (cfg.grid_y : ℚ) * 42 > cfg.bed_size)

/-- Modelled from the spec: the BinSplitter's diagonal fit check
`(width + height) / sqrt(2) ≤ bed_size` (the backend geometry code is
not in the frontend sources). Stated equivalently over `ℚ` as
`(width + height)² ≤ 2 × bed_size²`, which for non-negative operands is
the same predicate; `divSqrtTwo_le_iff` below proves the
equivalence. -/
def diagFits (w h bed : ℚ) : Bool := (w + h) ^ 2 ≤ 2 * bed ^ 2

/-- Modelled from the spec: a split is triggered when the footprint
width or height exceeds `bed_size`, or when the diagonal fit check
fails. -/
def splitTriggered (w h bed : ℚ) : Bool :=
  bed < w || bed < h || !diagFits w h bed

/-- Modelled from the spec: the largest number of whole 42 mm cells
whose extent fits within `bed_size`. -/
def maxCellsPerPart (bed : ℚ) : ℕ := (⌊bed / 42⌋).toNat

/-- Fuel-driven helper for `splitAxisCells`; the fuel is always at
least the remaining cell count at every call site. -/
def splitGo (c : ℕ) : ℕ → ℕ → List ℕ
  | 0, _ => []
  | _ + 1, 0 => []
  | fuel + 1, n + 1 =>
      if c = 0 then [] else min c (n + 1) :: splitGo c fuel (n + 1 - c)

/-- Modelled from the spec: split `n` grid cells along internal 42 mm
cell boundaries into consecutive runs of at most `c` cells each, using
the fewest cuts (each run is as large as allowed). -/
def splitAxisCells (c n : ℕ) : List ℕ := splitGo c n n

/-! ## Magnet holes (claim C6) -/

/-- A cylindrical magnet hole. -/
structure MagnetHole where
  cx : ℚ
  cy : ℚ
  diameter : ℚ
  depth : ℚ
deriving DecidableEq, Repr

/-- The four fixed per-cell magnet positions: 26 mm centre-to-centre
(`MAGNET_SPACING` in the STL-generation document), so ±13 mm from the
cell centre on each axis. -/
def magnetOffsets : List (ℚ × ℚ) := [(-13, -13), (-13, 13), (13, -13), (13, 13)]

/-- Cell centre coordinate from the STL-generation document:
`(i - (n - 1)/2) * 42`. -/
def cellCenter (n i : ℕ) : ℚ := ((i : ℚ) - ((n : ℚ) - 1) / 2) * 42

/-- The four magnet holes of one cell: 6 mm diameter
(`MAGNET_DIAMETER`), 2.4 mm deep (`MAGNET_DEPTH`). -/
def magnetCellHoles (gx gy ix iy : ℕ) : List MagnetHole :=
  magnetOffsets.map fun o =>
    { cx := cellCenter gx ix + o.1, cy := cellCenter gy iy + o.2,
      diameter := 6, depth := 2.4 }

/-- Modelled from the spec: the CutoutCarver's magnet holes (the
backend geometry code is not in the frontend sources) — when `magnets`
is enabled, four holes per grid cell at the fixed per-cell offsets,
placed regardless of tool placement (the definition takes no tool
input); none when disabled. Constants from the repository's
STL-generation document. -/
def magnetHoles (cfg : BinConfig) : List MagnetHole :=
  if cfg.magnets then
    (List.range cfg.grid_x).flatMap fun ix =>
      (List.range cfg.grid_y).flatMap fun iy =>
        magnetCellHoles cfg.grid_x cfg.grid_y ix iy
  else []

/-- Scenario A configuration with magnets enabled. -/
def cfgMag : BinConfig := { cfgA with magnets := true }

/-- The first magnet hole of the 2×2 magnet-enabled bin: cell (0,0),
offset (−13, −13). -/
def demoHole : MagnetHole :=
  { cx := cellCenter 2 0 + (-13), cy := cellCenter 2 0 + (-13),
    diameter := 6, depth := 2.4 }

/-! ## Cutout depth clamping (claim C7)

The `BinConfigurator` UI bounds `cutout_depth` to the range 5–100 mm
(`SliderRow` clamps typed values with `Math.min(max, Math.max(min, v))`).
The carving clamp itself lives in the geometry backend, which is not in
the frontend sources; it is modelled from the spec below. -/

/-- The number-input clamp of `SliderRow` in
`frontend/src/components/BinConfigurator`:
`Math.min(max, Math.max(min, v))`. -/
def sliderClamp (lo hi v : ℚ) : ℚ := min hi (max lo v)

/-- Wall height above the base top (wall spans from the base top at
`z = 4.75` to the wall top at `z = height_units × 7`). -/
def wallHeightAboveBase (cfg : BinConfig) : ℚ := wallTopZ cfg - baseTopZ

/-- Modelled from the spec: the CutoutCarver clamps the carved depth so
that it never pierces the base —
`cutout_depth ≤ wall height − minimum floor thickness` (the backend
geometry code is not in the frontend sources; the minimum floor
thickness is left as a parameter, as the spec names no value). -/
def carvedDepth (cfg : BinConfig) (minFloor : ℚ) : ℚ :=
  min cfg.cutout_depth (wallHeightAboveBase cfg - minFloor)

/-- The z of the bottom face of a pocket carved downward from the wall
top by the clamped depth. -/
def pocketBottomZ (cfg : BinConfig) (minFloor : ℚ) : ℚ :=
  wallTopZ cfg - carvedDepth cfg minFloor

/-! ## The generation state machine (claims C8, C9)

Embeds `doGenerate` of `frontend/src/app/configure/[id]/page.tsx`.
A request carries the serialized polygons-plus-config key
(`JSON.stringify({polygons, config})`). The code drops a request whose
key equals the last issued one (`lastGenerateRef`), marks a request
arriving while one is in flight as pending (`pendingGenerateRef`), and
after a completion re-issues a single follow-up request (with the key
current at that moment) when the pending flag is set. JavaScript is
single-threaded, so the async body is modelled as two atomic steps:
the synchronous prefix of `doGenerate` (`requestStep`) and the
resumption after `generateStl` settles (`completeStep`). -/

/-- Outcome of a `generateStl` call. -/
inductive GenResult where
  | ok (url : String)
  | err (msg : String)
deriving DecidableEq, Repr

/-- The page state touched by `doGenerate`: the published preview URL
and its version, the surfaced error, the dedup key, the
generating/pending flags, and a ghost counter of started-but-unsettled
backend calls (the code tracks this via `generatingRef`). -/
structure GenState where
  stlUrl : Option String
  stlVersion : ℕ
  errorMsg : Option String
  lastKey : String
  generating : Bool
  pending : Bool
  inFlight : ℕ
deriving DecidableEq, Repr

/-- The synchronous prefix of `doGenerate`: drop a duplicate of the
last issued key; if already generating, set the pending flag; else
record the key, clear the error and start a generation. -/
def requestStep (s : GenState) (key : String) : GenState :=
  if key = s.lastKey then s
  else if s.generating then { s with pending := true }
  else { s with lastKey := key, generating := true, errorMsg := none,
                inFlight := s.inFlight + 1 }

/-- The resumption of `doGenerate` when `generateStl` settles: publish
the URL and bump the version on success, surface the error on failure;
then clear the generating flag and, if the pending flag was set, clear
it and issue one follow-up request with the now-current key. -/
def completeStep (s : GenState) (res : GenResult) (curKey : String) : GenState :=
  let s1 := match res with
    | GenResult.ok url => { s with stlUrl := some url, stlVersion := s.stlVersion + 1 }
    | GenResult.err m => { s with errorMsg := some m }
  let s2 := { s1 with generating := false, inFlight := s1.inFlight - 1 }
  if s2.pending then requestStep { s2 with pending := false } curKey else s2

/-- An event seen by the page: a (debounced) generation request, or the
settlement of the in-flight backend call. -/
inductive GenEvent where
  | request (key : String)
  | complete (res : GenResult) (curKey : String)

/-- One event step; a completion can only occur while a call is in
flight. -/
def stepEv (s : GenState) : GenEvent → GenState
  | GenEvent.request k => requestStep s k
  | GenEvent.complete r k => if s.generating then completeStep s r k else s

/-- The initial page state (`useRef` defaults). -/
def initGenState : GenState :=
  { stlUrl := none, stlVersion := 0, errorMsg := none, lastKey := "",
    generating := false, pending := false, inFlight := 0 }

/-- The state after a sequence of events from the initial state. -/
def runEvents (evs : List GenEvent) : GenState :=
  evs.foldl stepEv initGenState

/-- The in-flight counter agrees with the generating flag. -/
def GoodGen (s : GenState) : Prop :=
  s.inFlight = if s.generating then 1 else 0

/-- A concrete page state with one generation in flight and a published
preview. -/
def sInFlight : GenState :=
  { stlUrl := some "bin.stl", stlVersion := 3, errorMsg := none,
    lastKey := "k0", generating := true, pending := false, inFlight := 1 }

/-- Modelled from the spec: the backend's content-addressed artifact
cache is written only by a successful generation (write to a temporary
location, then publish); a failed request publishes nothing. The
backend cache code is not in the frontend sources. -/
def commitResult (cache : List (String × String)) (key : String) :
    GenResult → List (String × String)
  | GenResult.ok url => (key, url) :: cache
  | GenResult.err _ => cache

/-! ## Layout editor cutout sizing (claim C10)

Embeds the cutout creation (`createCutout`) and the drag handlers of
`frontend/src/components/LayoutEditor.tsx`. -/

/-- The editor's active tool (`type Tool` in `LayoutEditor`). -/
inductive EditorTool where
  | select
  | fingerHole
  | circle
  | square
  | rectangle
deriving DecidableEq, Repr

/-- `createCutout` of `LayoutEditor`: a new cutout at the clicked
position (converted from millimetres back to pixel coordinates by
`/ scaleFactor`), with the per-tool initial size — radius 15 for a
finger hole, 10 for a circle or square (half-width), and 15 with a
30 × 20 body for a rectangle; the select tool creates nothing. -/
def createCutout (tool : EditorTool) (xMm yMm sf : ℚ) : Option FingerHole :=
  let base : FingerHole :=
    { x := xMm / sf, y := yMm / sf, radius := 0, rotation := 0,
      shape := none, width := none, height := none }
  match tool with
  | EditorTool.fingerHole => some { base with radius := 15, shape := some ShapeKind.circle }
  | EditorTool.circle => some { base with radius := 10, shape := some ShapeKind.circle }
  | EditorTool.square => some { base with radius := 10, shape := some ShapeKind.square }
  | EditorTool.rectangle =>
      some { base with radius := 15, shape := some ShapeKind.rectangle,
                       width := some 30, height := some 20 }
  | EditorTool.select => none

/-- JavaScript truthiness of an optional numeric field, as used by
`dragging.origWidth && dragging.origHeight`. -/
def qTruthy : Option ℚ → Bool
  | none => false
  | some v => v != 0

/-- The resize branch of the `LayoutEditor` mouse-move handler:
`newRadius = Math.max(5, Math.sqrt(dx² + dy²))` — `dist` stands for the
computed drag distance `Math.sqrt(dx² + dy²)`;
`scaleMult = origRadius > 0 ? newRadius / origRadius : 1`. A rectangle
with truthy drag-start width and height is rescaled with width and
height clamped by `Math.max(10, ·)`; every other hole only gets the
clamped radius. -/
def applyResize (fh : FingerHole) (dist origRadius : ℚ)
    (origWidth origHeight : Option ℚ) : FingerHole :=
  let newRadius := max 5 dist
  let scaleMult := if 0 < origRadius then newRadius / origRadius else 1
  if fh.shape = some ShapeKind.rectangle ∧
      qTruthy origWidth = true ∧ qTruthy origHeight = true then
    { fh with radius := newRadius,
              width := some (max 10 (origWidth.getD 0 * scaleMult)),
              height := some (max 10 (origHeight.getD 0 * scaleMult)) }
  else
    { fh with radius := newRadius }

/-- The hole-drag branch of the mouse-move handler: only the centre
moves; the size fields are untouched. -/
def moveHole (fh : FingerHole) (nx ny : ℚ) : FingerHole :=
  { fh with x := nx, y := ny }

/-- The cutout produced by a click with the circle tool at the origin
with scale factor 1. -/
def demoCutout : FingerHole :=
  { x := (0 : ℚ) / 1, y := (0 : ℚ) / 1, radius := 10, rotation := 0,
    shape := some ShapeKind.circle, width := none, height := none }

/-! ## Theorems

The theorems below settle the claims about the definitions above;
helper lemmas come before the claim theorems that use them. -/

/-- C1, counterexample: at `height_units = 4` without a stacking lip the
page reports a bin height of `33` mm (`4 × 7 + 5`), not
`4 × 7 + 4.75 = 32.75`, and the STL document's wall top is at
`z = 28` mm (`4 × 7`), not `32.75`. -/
theorem reportedHeight_ne_spec_formula :
    reportedHeight cfgA = 33 ∧ wallTopZ cfgA = 28 ∧
    ¬ reportedHeight cfgA = (4 * 7 + 4.75 : ℚ) ∧
    ¬ wallTopZ cfgA = (4 * 7 + 4.75 : ℚ) := by
  refine ⟨?_, ?_, ?_, ?_⟩ <;> simp [reportedHeight, wallTopZ, cfgA] <;> norm_num

/-- C1, amended: for every BinConfig the reported bin height equals
`height_units × 7 + 5` plus `4.4` when the stacking lip is set, the
constructed wall top sits at `z = height_units × 7`, and the top of the
solid is exactly `4.4` mm above the wall top if and only if
`stacking_lip` is set. -/
theorem height_contract (cfg : BinConfig) :
    reportedHeight cfg
        = cfg.height_units * 7 + 5 + (if cfg.stacking_lip then (4.4 : ℚ) else 0) ∧
    wallTopZ cfg = cfg.height_units * 7 ∧
    (lipTopZ cfg = wallTopZ cfg + 4.4 ↔ cfg.stacking_lip = true) := by
  refine ⟨rfl, rfl, ?_⟩
  cases h : cfg.stacking_lip <;> simp [lipTopZ, wallTopZ, h] <;> norm_num

/-- Witness for the amended C1 at concrete configurations: with the
lip the reported height is `37.4` mm and the solid top is `4.4` mm
above the wall top. -/
theorem height_contract_witness :
    reportedHeight cfgLip = 37.4 ∧ wallTopZ cfgLip = 28 ∧
    lipTopZ cfgLip = wallTopZ cfgLip + 4.4 := by
  have h := height_contract cfgLip
  refine ⟨?_, ?_, h.2.2.mpr rfl⟩
  · rw [h.1]
    simp only [cfgLip, cfgA]
    norm_num
  · rw [h.2.1]
    simp only [cfgLip, cfgA]
    norm_num

theorem demo_toolMinX : toolMinX 1 [demoPoly] = 0 := by
  simp [toolMinX, xsOf, allPoints, demoPoly, listMin]

theorem demo_toolMaxX : toolMaxX 1 [demoPoly] = 120 := by
  simp [toolMaxX, xsOf, allPoints, demoPoly, listMax]

theorem demo_toolMinY : toolMinY 1 [demoPoly] = 0 := by
  simp [toolMinY, ysOf, allPoints, demoPoly, listMin]

theorem demo_toolMaxY : toolMaxY 1 [demoPoly] = 40 := by
  simp [toolMaxY, ysOf, allPoints, demoPoly, listMax]

/-- C2: the auto-sizer computes per axis
`grid = ceil((dim + 2*clearance + 2*wall) / 42)` floored at `1`, and on
a `120 × 40` mm bounding box with clearance `1` mm and wall `1.6` mm it
yields `grid_x = 3` and `grid_y = 2`. -/
theorem autoGridAxis_formula :
    (∀ dim clear wall : ℚ,
        autoGridAxis dim clear wall = max 1 ⌈(dim + 2 * clear + 2 * wall) / 42⌉) ∧
    (∀ dim clear wall : ℚ, 1 ≤ autoGridAxis dim clear wall) ∧
    gridXOf 1 [demoPoly] = 3 ∧ gridYOf 1 [demoPoly] = 2 := by
  refine ⟨fun _ _ _ => rfl, fun _ _ _ => le_max_left _ _, ?_, ?_⟩
  · rw [gridXOf, demo_toolMaxX, demo_toolMinX]
    unfold autoGridAxis clearanceConst wallConst
    have h : (⌈(120 - 0 + 2 * (1.0 : ℚ) + 2 * 1.6) / 42⌉ : ℤ) = 3 := by
      rw [Int.ceil_eq_iff] <;> norm_num
    rw [h]; decide
  · rw [gridYOf, demo_toolMaxY, demo_toolMinY]
    unfold autoGridAxis clearanceConst wallConst
    have h : (⌈(40 - 0 + 2 * (1.0 : ℚ) + 2 * 1.6) / 42⌉ : ℤ) = 2 := by
      rw [Int.ceil_eq_iff] <;> norm_num
    rw [h]; decide

/-- Witness for C2: the scenario instances of the sizing formula. -/
theorem autoGridAxis_formula_witness :
    gridXOf 1 [demoPoly] = 3 ∧ gridYOf 1 [demoPoly] = 2 :=
  ⟨autoGridAxis_formula.2.2.1, autoGridAxis_formula.2.2.2⟩

theorem foldl_min_map_add (c : ℚ) :
    ∀ (t : List ℚ) (a : ℚ),
      (t.map (fun v => v + c)).foldl min (a + c) = t.foldl min a + c := by
  intro t
  induction t with
  | nil => intro a; rfl
  | cons b t ih =>
      intro a
      simp only [List.map_cons, List.foldl_cons]
      rw [min_add_add_right]
      exact ih (min a b)

theorem foldl_max_map_add (c : ℚ) :
    ∀ (t : List ℚ) (a : ℚ),
      (t.map (fun v => v + c)).foldl max (a + c) = t.foldl max a + c := by
  intro t
  induction t with
  | nil => intro a; rfl
  | cons b t ih =>
      intro a
      simp only [List.map_cons, List.foldl_cons]
      rw [max_add_add_right]
      exact ih (max a b)

theorem listMin_map_add (l : List ℚ) (c : ℚ) (h : l ≠ []) :
    listMin (l.map (fun v => v + c)) = listMin l + c := by
  cases l with
  | nil => exact absurd rfl h
  | cons a t => simpa [listMin] using foldl_min_map_add c t a

theorem listMax_map_add (l : List ℚ) (c : ℚ) (h : l ≠ []) :
    listMax (l.map (fun v => v + c)) = listMax l + c := by
  cases l with
  | nil => exact absurd rfl h
  | cons a t => simpa [listMax] using foldl_max_map_add c t a

theorem allPoints_map_translate (dx dy : ℚ) (polys : List Polygon) :
    allPoints (polys.map (translatePoly dx dy))
      = (allPoints polys).map (fun p => { x := p.x + dx, y := p.y + dy }) := by
  induction polys with
  | nil => rfl
  | cons poly rest ih =>
      simp only [List.map_cons, allPoints, List.flatten_cons] at *
      simp only [translatePoly, List.map_append, ih]

theorem xsOf_centerPolys (sf : ℚ) (polys : List Polygon) :
    xsOf sf (centerPolys sf polys)
      = (xsOf sf polys).map (fun v => v + offsetXOf sf polys * sf) := by
  unfold xsOf centerPolys
  rw [allPoints_map_translate, List.map_map, List.map_map]
  congr 1
  funext p
  simp only [Function.comp]
  ring

theorem ysOf_centerPolys (sf : ℚ) (polys : List Polygon) :
    ysOf sf (centerPolys sf polys)
      = (ysOf sf polys).map (fun v => v + offsetYOf sf polys * sf) := by
  unfold ysOf centerPolys
  rw [allPoints_map_translate, List.map_map, List.map_map]
  congr 1
  funext p
  simp only [Function.comp]
  ring

/-- C3, amended: recentring applies one and the same translation — the
computed `(offsetX, offsetY)` — to every exterior-ring point and every
finger-hole centre of every polygon, leaving labels and hole
shapes/sizes unchanged; but the interior rings are copied unchanged by
the `...poly` spread, that is, left untranslated — not moved by that
same offset as the claim states. -/
theorem centerPolys_uniform_translation (sf : ℚ) (polys : List Polygon) :
    (centerPolys sf polys).length = polys.length ∧
    ∀ i (hi : i < polys.length) (hc : i < (centerPolys sf polys).length),
      ((centerPolys sf polys).get ⟨i, hc⟩).points
          = ((polys.get ⟨i, hi⟩).points).map
              (fun p => { x := p.x + offsetXOf sf polys, y := p.y + offsetYOf sf polys }) ∧
      ((centerPolys sf polys).get ⟨i, hc⟩).finger_holes
          = ((polys.get ⟨i, hi⟩).finger_holes).map
              (fun fh => { fh with x := fh.x + offsetXOf sf polys, y := fh.y + offsetYOf sf polys }) ∧
      ((centerPolys sf polys).get ⟨i, hc⟩).label = (polys.get ⟨i, hi⟩).label ∧
      ((centerPolys sf polys).get ⟨i, hc⟩).interior_rings
          = (polys.get ⟨i, hi⟩).interior_rings := by
  refine ⟨by simp [centerPolys], ?_⟩
  intro i hi hc
  have h1 : (centerPolys sf polys).get ⟨i, hc⟩
      = translatePoly (offsetXOf sf polys) (offsetYOf sf polys) (polys.get ⟨i, hi⟩) := by
    simp [centerPolys, List.get_eq_getElem, List.getElem_map]
  rw [h1]
  exact ⟨rfl, rfl, rfl, rfl⟩

theorem demo_center_len_pos : 0 < (centerPolys 1 [demoPoly]).length := by
  simp [centerPolys]

/-- Witness for C3 at the Scenario B polygon. -/
theorem centerPolys_uniform_translation_witness :
    ((centerPolys 1 [demoPoly]).get ⟨0, demo_center_len_pos⟩).label = "tool" ∧
    ((centerPolys 1 [demoPoly]).get ⟨0, demo_center_len_pos⟩).interior_rings = none := by
  have h := (centerPolys_uniform_translation 1 [demoPoly]).2 0 (by decide) demo_center_len_pos
  constructor
  · rw [h.2.2.1]
    rfl
  · rw [h.2.2.2]
    rfl

theorem ring_center_len_pos : 0 < (centerPolys 1 [ringPoly]).length := by
  simp [centerPolys]

theorem ring_toolMinX : toolMinX 1 [ringPoly] = 0 := by
  simp [toolMinX, xsOf, allPoints, ringPoly, listMin]

theorem ring_toolMaxX : toolMaxX 1 [ringPoly] = 120 := by
  simp [toolMaxX, xsOf, allPoints, ringPoly, listMax]

theorem ring_toolMinY : toolMinY 1 [ringPoly] = 0 := by
  simp [toolMinY, ysOf, allPoints, ringPoly, listMin]

theorem ring_toolMaxY : toolMaxY 1 [ringPoly] = 40 := by
  simp [toolMaxY, ysOf, allPoints, ringPoly, listMax]

theorem ring_offsetX : offsetXOf 1 [ringPoly] = 3 := by
  have hg : gridXOf 1 [ringPoly] = 3 := by
    rw [gridXOf, ring_toolMaxX, ring_toolMinX]
    unfold autoGridAxis clearanceConst wallConst
    have h : (⌈(120 - 0 + 2 * (1.0 : ℚ) + 2 * 1.6) / 42⌉ : ℤ) = 3 := by
      rw [Int.ceil_eq_iff] <;> norm_num
    rw [h]; decide
  rw [offsetXOf, hg, ring_toolMinX, ring_toolMaxX]
  norm_num

theorem ring_offsetY : offsetYOf 1 [ringPoly] = 22 := by
  have hg : gridYOf 1 [ringPoly] = 2 := by
    rw [gridYOf, ring_toolMaxY, ring_toolMinY]
    unfold autoGridAxis clearanceConst wallConst
    have h : (⌈(40 - 0 + 2 * (1.0 : ℚ) + 2 * 1.6) / 42⌉ : ℤ) = 2 := by
      rw [Int.ceil_eq_iff] <;> norm_num
    rw [h]; decide
  rw [offsetYOf, hg, ring_toolMinY, ring_toolMaxY]
  norm_num

/-- C3, counterexample: on a polygon with one interior ring, recentring
moves every exterior point by the computed offset `(3, 22)` but leaves
the interior ring exactly where it was — which differs from the ring
translated by that same offset. So a part of the polygon is left
untranslated, against the claim. -/
theorem centerPolys_misses_interior_rings :
    offsetXOf 1 [ringPoly] = 3 ∧ offsetYOf 1 [ringPoly] = 22 ∧
    ((centerPolys 1 [ringPoly]).get ⟨0, ring_center_len_pos⟩).points
        = [⟨3, 22⟩, ⟨123, 22⟩, ⟨123, 62⟩, ⟨3, 62⟩] ∧
    ((centerPolys 1 [ringPoly]).get ⟨0, ring_center_len_pos⟩).interior_rings
        = some [[⟨10, 10⟩, ⟨20, 10⟩, ⟨20, 20⟩]] ∧
    (some [[(⟨10, 10⟩ : Point), ⟨20, 10⟩, ⟨20, 20⟩]]
        ≠ some [[(⟨10 + 3, 10 + 22⟩ : Point), ⟨20 + 3, 10 + 22⟩, ⟨20 + 3, 20 + 22⟩]]) := by
  have hget : (centerPolys 1 [ringPoly]).get ⟨0, ring_center_len_pos⟩
      = translatePoly (offsetXOf 1 [ringPoly]) (offsetYOf 1 [ringPoly]) ringPoly := by
    simp [centerPolys, List.get_eq_getElem]
  refine ⟨ring_offsetX, ring_offsetY, ?_, ?_, ?_⟩
  · rw [hget, ring_offsetX, ring_offsetY]
    simp only [translatePoly, ringPoly, List.map_cons, List.map_nil]
    norm_num
  · rw [hget]
    rfl
  · intro h
    simp only [Option.some.injEq, List.cons.injEq, Point.mk.injEq] at h
    norm_num at h

/-- C5: the auto-sizer is deterministic (a pure function of its
arguments) and idempotent — re-running it on the already-recentred
polygons yields the same grid dimensions and a zero recentring
offset. -/
theorem autoSize_idempotent (sf : ℚ) (polys : List Polygon) (hsf : sf ≠ 0)
    (hne : allPoints polys ≠ []) :
    gridXOf sf (centerPolys sf polys) = gridXOf sf polys ∧
    gridYOf sf (centerPolys sf polys) = gridYOf sf polys ∧
    offsetXOf sf (centerPolys sf polys) = 0 ∧
    offsetYOf sf (centerPolys sf polys) = 0 := by
  have hxne : xsOf sf polys ≠ [] := by
    simp only [xsOf, ne_eq, List.map_eq_nil_iff]
    exact hne
  have hyne : ysOf sf polys ≠ [] := by
    simp only [ysOf, ne_eq, List.map_eq_nil_iff]
    exact hne
  have hminx : toolMinX sf (centerPolys sf polys)
      = toolMinX sf polys + offsetXOf sf polys * sf := by
    rw [toolMinX, xsOf_centerPolys, listMin_map_add _ _ hxne]; rfl
  have hmaxx : toolMaxX sf (centerPolys sf polys)
      = toolMaxX sf polys + offsetXOf sf polys * sf := by
    rw [toolMaxX, xsOf_centerPolys, listMax_map_add _ _ hxne]; rfl
  have hminy : toolMinY sf (centerPolys sf polys)
      = toolMinY sf polys + offsetYOf sf polys * sf := by
    rw [toolMinY, ysOf_centerPolys, listMin_map_add _ _ hyne]; rfl
  have hmaxy : toolMaxY sf (centerPolys sf polys)
      = toolMaxY sf polys + offsetYOf sf polys * sf := by
    rw [toolMaxY, ysOf_centerPolys, listMax_map_add _ _ hyne]; rfl
  have hgx : gridXOf sf (centerPolys sf polys) = gridXOf sf polys := by
    rw [gridXOf, gridXOf, hmaxx, hminx]
    congr 1
    ring
  have hgy : gridYOf sf (centerPolys sf polys) = gridYOf sf polys := by
    rw [gridYOf, gridYOf, hmaxy, hminy]
    congr 1
    ring
  have hDx : offsetXOf sf polys * sf
      = (gridXOf sf polys : ℚ) * 42 / 2
          - (toolMinX sf polys + toolMaxX sf polys) / 2 := by
    rw [offsetXOf]
    exact div_mul_cancel₀ _ hsf
  have hDy : offsetYOf sf polys * sf
      = (gridYOf sf polys : ℚ) * 42 / 2
          - (toolMinY sf polys + toolMaxY sf polys) / 2 := by
    rw [offsetYOf]
    exact div_mul_cancel₀ _ hsf
  refine ⟨hgx, hgy, ?_, ?_⟩
  · rw [offsetXOf, hgx, hmaxx, hminx, hDx]
    ring_nf
  · rw [offsetYOf, hgy, hmaxy, hminy, hDy]
    ring_nf

/-- Witness for C5: the auto-sizer at the Scenario B polygon is a fixed
point after one recentring. -/
theorem autoSize_idempotent_witness :
    gridXOf 1 (centerPolys 1 [demoPoly]) = gridXOf 1 [demoPoly] ∧
    offsetXOf 1 (centerPolys 1 [demoPoly]) = 0 ∧
    offsetYOf 1 (centerPolys 1 [demoPoly]) = 0 := by
  have h := autoSize_idempotent 1 [demoPoly] one_ne_zero
    (by simp [allPoints, demoPoly])
  exact ⟨h.1, h.2.2.1, h.2.2.2⟩

theorem divSqrtTwo_le_iff (s bed : ℝ) (hs : 0 ≤ s) (hb : 0 ≤ bed) :
    s / Real.sqrt 2 ≤ bed ↔ s ^ 2 ≤ 2 * bed ^ 2 := by
  rw [div_le_iff₀ (by positivity)]
  have hsq : (bed * Real.sqrt 2) ^ 2 = 2 * bed ^ 2 := by
    rw [mul_pow, Real.sq_sqrt (by norm_num : (0:ℝ) ≤ 2)]
    ring
  constructor
  · intro h
    calc s ^ 2 ≤ (bed * Real.sqrt 2) ^ 2 := pow_le_pow_left₀ hs h 2
      _ = 2 * bed ^ 2 := hsq
  · intro h
    have hbs : 0 ≤ bed * Real.sqrt 2 := by positivity
    have h2 : s ^ 2 ≤ (bed * Real.sqrt 2) ^ 2 := by rw [hsq]; exact h
    exact (pow_le_pow_iff_left₀ hs hbs (by norm_num)).mp h2

theorem maxCellsPerPart_180 : maxCellsPerPart 180 = 4 := by
  unfold maxCellsPerPart
  have h : (⌊(180 : ℚ) / 42⌋ : ℤ) = 4 := by
    rw [Int.floor_eq_iff]
    constructor <;> norm_num
  rw [h]
  rfl

/-- C4: the split trigger is exactly "width or height exceeds the bed,
or the diagonal fit check `(w + h)/√2 ≤ bed` fails"; a `210 × 84` mm
footprint (5 × 2 cells) with a 180 mm bed triggers it, and the
5-cell-wide axis splits into 2 parts of 4 and 1 cells, each fitting
within 180 mm; the `BinConfigurator` UI flags the same footprint. -/
theorem binSplitter_trigger :
    (∀ w h bed : ℚ, 0 ≤ w → 0 ≤ h → 0 ≤ bed →
        (splitTriggered w h bed = true ↔
          (bed < w ∨ bed < h ∨ ¬ (((w : ℝ) + h) / Real.sqrt 2 ≤ bed)))) ∧
    splitTriggered 210 84 180 = true ∧
    splitAxisCells (maxCellsPerPart 180) 5 = [4, 1] ∧
    2 ≤ (splitAxisCells (maxCellsPerPart 180) 5).length ∧
    (∀ k ∈ splitAxisCells (maxCellsPerPart 180) 5, (k : ℚ) * 42 ≤ 180) ∧
    needsSplitUI { cfgA with grid_x := 5 } = true := by
  refine ⟨?_, ?_, ?_, ?_, ?_, ?_⟩
  · intro w h bed hw hh hb
    have hsum : (0:ℝ) ≤ (w : ℝ) + h := by exact_mod_cast add_nonneg hw hh
    have hbr : (0:ℝ) ≤ (bed : ℝ) := by exact_mod_cast hb
    have key : (((w : ℝ) + h) / Real.sqrt 2 ≤ bed) ↔ ((w + h) ^ 2 ≤ 2 * bed ^ 2) := by
      rw [divSqrtTwo_le_iff _ _ hsum hbr]
      constructor
      · intro hx
        exact_mod_cast hx
      · intro hx
        exact_mod_cast hx
    simp only [splitTriggered, diagFits, Bool.or_eq_true, decide_eq_true_eq,
      Bool.not_eq_true', decide_eq_false_iff_not, key]
    tauto
  · simp only [splitTriggered, Bool.or_eq_true, decide_eq_true_eq]
    left
    norm_num
  · rw [maxCellsPerPart_180]
    decide
  · rw [maxCellsPerPart_180]
    decide
  · rw [maxCellsPerPart_180]
    intro k hk
    have hk2 : k = 4 ∨ k = 1 := by
      have h : splitAxisCells 4 5 = [4, 1] := by decide
      rw [h] at hk
      simpa using hk
    rcases hk2 with rfl | rfl <;> norm_num
  · simp only [needsSplitUI, cfgA, Bool.and_eq_true, Bool.or_eq_true, decide_eq_true_eq]
    norm_num

/-- Witness for C4: the trigger equivalence instantiated at the
Scenario C footprint. -/
theorem binSplitter_trigger_witness :
    splitTriggered 210 84 180 = true ↔
      ((180 : ℚ) < 210 ∨ (180 : ℚ) < 84 ∨
        ¬ (((210 : ℚ) : ℝ) + (84 : ℚ)) / Real.sqrt 2 ≤ ((180 : ℚ) : ℝ)) :=
  binSplitter_trigger.1 210 84 180 (by norm_num) (by norm_num) (by norm_num)

theorem length_flatMap_const {α β : Type} (L : List α) (f : α → List β) (k : ℕ)
    (h : ∀ a, (f a).length = k) : (L.flatMap f).length = L.length * k := by
  induction L with
  | nil => simp
  | cons a t ih =>
      simp only [List.flatMap_cons, List.length_append, h, ih, List.length_cons]
      ring

/-- C6: the generated bin has exactly `4 × grid_x × grid_y` magnet
holes when magnets are enabled and exactly `0` when disabled, every
hole being 6 mm in diameter and 2.4 mm deep. -/
theorem magnetHoles_count (cfg : BinConfig) :
    (magnetHoles cfg).length
        = (if cfg.magnets then 4 * cfg.grid_x * cfg.grid_y else 0) ∧
    ∀ hole ∈ magnetHoles cfg, hole.diameter = 6 ∧ hole.depth = 2.4 := by
  constructor
  · by_cases hm : cfg.magnets
    · simp only [magnetHoles, if_pos hm]
      rw [length_flatMap_const _ _ (cfg.grid_y * 4)]
      · simp only [List.length_range]
        ring
      · intro ix
        rw [length_flatMap_const _ _ 4]
        · simp
        · intro iy
          simp [magnetCellHoles, magnetOffsets]
    · simp [magnetHoles, hm]
  · intro hole hmem
    by_cases hm : cfg.magnets
    · simp only [magnetHoles, if_pos hm, List.mem_flatMap] at hmem
      obtain ⟨ix, _, iy, _, hmem⟩ := hmem
      simp only [magnetCellHoles, List.mem_map] at hmem
      obtain ⟨o, _, rfl⟩ := hmem
      exact ⟨rfl, rfl⟩
    · simp [magnetHoles, hm] at hmem

/-- Witness for C6: 16 holes on a 2×2 bin with magnets, none without,
and a concrete member hole has the fixed diameter and depth. -/
theorem magnetHoles_count_witness :
    (magnetHoles cfgMag).length = 16 ∧
    (magnetHoles cfgA).length = 0 ∧
    demoHole.diameter = 6 ∧ demoHole.depth = 2.4 := by
  have hmem : demoHole ∈ magnetHoles cfgMag := by
    unfold demoHole
    simp only [magnetHoles, cfgMag, cfgA, if_pos]
    refine List.mem_flatMap.mpr ⟨0, by simp, ?_⟩
    refine List.mem_flatMap.mpr ⟨0, by simp, ?_⟩
    simp [magnetCellHoles, magnetOffsets]
  have hset := (magnetHoles_count cfgMag).2 _ hmem
  have h1 := (magnetHoles_count cfgMag).1
  have h2 := (magnetHoles_count cfgA).1
  refine ⟨?_, ?_, hset.1, hset.2⟩
  · rw [h1]; simp [cfgMag, cfgA]
  · rw [h2]; simp [cfgA]

/-- C7: the depth actually carved never exceeds the wall height minus
the floor margin — even when the user-supplied `cutout_depth` (which
the UI allows up to 100 mm) is larger — so the pocket bottom always
stays at least the floor margin above the base top and never pierces
the base. -/
theorem carvedDepth_clamped (cfg : BinConfig) (minFloor : ℚ) :
    carvedDepth cfg minFloor ≤ wallHeightAboveBase cfg - minFloor ∧
    baseTopZ + minFloor ≤ pocketBottomZ cfg minFloor ∧
    carvedDepth cfg minFloor ≤ cfg.cutout_depth ∧
    sliderClamp 5 100 cfg.cutout_depth ≤ 100 := by
  refine ⟨min_le_right _ _, ?_, min_le_left _ _, min_le_left _ _⟩
  have h := min_le_right cfg.cutout_depth (wallHeightAboveBase cfg - minFloor)
  unfold pocketBottomZ carvedDepth wallHeightAboveBase at *
  linarith

/-- Witness for C7 at the Scenario A configuration with a 1 mm floor
margin. -/
theorem carvedDepth_clamped_witness :
    carvedDepth cfgA 1 ≤ wallHeightAboveBase cfgA - 1 ∧
    baseTopZ + 1 ≤ pocketBottomZ cfgA 1 ∧
    carvedDepth cfgA 1 ≤ cfgA.cutout_depth ∧
    sliderClamp 5 100 cfgA.cutout_depth ≤ 100 :=
  carvedDepth_clamped cfgA 1

theorem goodGen_requestStep (s : GenState) (k : String) (h : GoodGen s) :
    GoodGen (requestStep s k) := by
  unfold GoodGen requestStep at *
  split
  · exact h
  · split
    · simp_all
    · simp_all

theorem goodGen_step (s : GenState) (e : GenEvent) (h : GoodGen s) :
    GoodGen (stepEv s e) := by
  cases e with
  | request k => exact goodGen_requestStep s k h
  | complete r k =>
      simp only [stepEv]
      split
      · rename_i hg
        unfold completeStep
        have hIF : s.inFlight = 1 := by
          unfold GoodGen at h
          rw [h, if_pos hg]
        cases r with
        | ok url =>
            simp only
            split
            · apply goodGen_requestStep
              unfold GoodGen
              simp [hIF]
            · unfold GoodGen
              simp [hIF]
        | err m =>
            simp only
            split
            · apply goodGen_requestStep
              unfold GoodGen
              simp [hIF]
            · unfold GoodGen
              simp [hIF]
      · exact h

theorem goodGen_run (evs : List GenEvent) : GoodGen (runEvents evs) := by
  have gen : ∀ (l : List GenEvent) (s : GenState), GoodGen s → GoodGen (l.foldl stepEv s) := by
    intro l
    induction l with
    | nil => intro s h; exact h
    | cons e t ih => intro s h; exact ih _ (goodGen_step s e h)
  exact gen evs initGenState rfl

/-- C9: at most one generation is ever in flight; a request whose key
equals the last issued one is dropped (state unchanged, nothing
recomputed); a request arriving while a generation is in flight only
sets the pending flag — it is coalesced into the single follow-up that
`completeStep` issues after the current generation finishes. -/
theorem generation_serialized :
    (∀ evs : List GenEvent, (runEvents evs).inFlight ≤ 1) ∧
    (∀ (s : GenState) (key : String), key = s.lastKey → requestStep s key = s) ∧
    (∀ (s : GenState) (key : String), s.generating = true → key ≠ s.lastKey →
        requestStep s key = { s with pending := true }) := by
  refine ⟨?_, ?_, ?_⟩
  · intro evs
    have h := goodGen_run evs
    unfold GoodGen at h
    rw [h]
    split <;> omega
  · intro s key h
    simp [requestStep, h]
  · intro s key hg hk
    simp [requestStep, hk, hg]

/-- Witness for C9 at concrete states and keys. -/
theorem generation_serialized_witness :
    (runEvents [GenEvent.request "a"]).inFlight ≤ 1 ∧
    requestStep sInFlight "k0" = sInFlight ∧
    requestStep sInFlight "k2" = { sInFlight with pending := true } := by
  refine ⟨generation_serialized.1 _, ?_, ?_⟩
  · exact generation_serialized.2.1 sInFlight "k0" rfl
  · exact generation_serialized.2.2 sInFlight "k2" rfl (by decide)

theorem requestStep_stlUrl (s : GenState) (k : String) :
    (requestStep s k).stlUrl = s.stlUrl := by
  unfold requestStep
  split
  · rfl
  · split <;> rfl

theorem requestStep_stlVersion (s : GenState) (k : String) :
    (requestStep s k).stlVersion = s.stlVersion := by
  unfold requestStep
  split
  · rfl
  · split <;> rfl

/-- C8: a failing generation leaves the published preview state
unchanged — same URL, same version — and, unless a pending request
immediately starts a new generation, surfaces the failure as the
error message; and on the backend model a failure writes nothing to
the artifact cache. -/
theorem generation_failure_atomic (s : GenState) (m curKey : String)
    (hg : s.generating = true) :
    (stepEv s (GenEvent.complete (GenResult.err m) curKey)).stlUrl = s.stlUrl ∧
    (stepEv s (GenEvent.complete (GenResult.err m) curKey)).stlVersion = s.stlVersion ∧
    (s.pending = false →
      (stepEv s (GenEvent.complete (GenResult.err m) curKey)).errorMsg = some m) ∧
    (∀ (cache : List (String × String)) (key : String),
        commitResult cache key (GenResult.err m) = cache) := by
  simp only [stepEv, if_pos hg]
  unfold completeStep
  simp only
  refine ⟨?_, ?_, ?_, fun _ _ => rfl⟩
  · split
    · rw [requestStep_stlUrl]
    · rfl
  · split
    · rw [requestStep_stlVersion]
    · rfl
  · intro hp
    rw [if_neg (by simp [hp])]

/-- Witness for C8: a failing completion on a concrete in-flight state
keeps the published preview and surfaces the error. -/
theorem generation_failure_atomic_witness :
    (stepEv sInFlight (GenEvent.complete (GenResult.err "boom") "k1")).stlUrl
        = some "bin.stl" ∧
    (stepEv sInFlight (GenEvent.complete (GenResult.err "boom") "k1")).stlVersion = 3 ∧
    (stepEv sInFlight (GenEvent.complete (GenResult.err "boom") "k1")).errorMsg
        = some "boom" ∧
    commitResult [] "k1" (GenResult.err "boom") = [] := by
  have h := generation_failure_atomic sInFlight "boom" "k1" rfl
  exact ⟨h.1, h.2.1, h.2.2.1 rfl, h.2.2.2 [] "k1"⟩

/-- C10: every finger hole keeps a strictly positive minimum size —
resizing clamps the radius to at least 5 and a rescaled rectangle's
width/height to at least 10, dragging changes no size, and every newly
created cutout starts with radius at least 10 — so no editing operation
can shrink a hole to zero or negative size. -/
theorem cutout_min_size :
    (∀ (fh : FingerHole) (dist origRadius : ℚ) (ow oh : Option ℚ),
        5 ≤ (applyResize fh dist origRadius ow oh).radius) ∧
    (∀ (fh : FingerHole) (dist origRadius : ℚ) (ow oh : Option ℚ) (w : ℚ),
        (applyResize fh dist origRadius ow oh).width = some w →
        10 ≤ w ∨ fh.width = some w) ∧
    (∀ (fh : FingerHole) (dist origRadius : ℚ) (ow oh : Option ℚ) (ht : ℚ),
        (applyResize fh dist origRadius ow oh).height = some ht →
        10 ≤ ht ∨ fh.height = some ht) ∧
    (∀ (tool : EditorTool) (xMm yMm sf : ℚ) (c : FingerHole),
        createCutout tool xMm yMm sf = some c → 10 ≤ c.radius) ∧
    (∀ (fh : FingerHole) (nx ny : ℚ),
        (moveHole fh nx ny).radius = fh.radius ∧
        (moveHole fh nx ny).width = fh.width ∧
        (moveHole fh nx ny).height = fh.height) := by
  refine ⟨?_, ?_, ?_, ?_, fun fh nx ny => ⟨rfl, rfl, rfl⟩⟩
  · intro fh dist origRadius ow oh
    simp only [applyResize]
    split
    · exact le_max_left _ _
    · exact le_max_left _ _
  · intro fh dist origRadius ow oh w
    simp only [applyResize]
    split
    · intro h
      rw [Option.some.injEq] at h
      exact Or.inl (h ▸ le_max_left _ _)
    · intro h
      exact Or.inr h
  · intro fh dist origRadius ow oh ht
    simp only [applyResize]
    split
    · intro h
      rw [Option.some.injEq] at h
      exact Or.inl (h ▸ le_max_left _ _)
    · intro h
      exact Or.inr h
  · intro tool xMm yMm sf c h
    cases tool <;> simp only [createCutout, Option.some.injEq] at h
    case select => exact absurd h (by simp)
    case fingerHole => rw [← h]; norm_num
    case circle => rw [← h]
    case square => rw [← h]
    case rectangle => rw [← h]; norm_num

theorem createCutout_demo :
    createCutout EditorTool.circle 0 0 1 = some demoCutout := rfl

/-- Witness for C10: a concrete resize keeps the radius at least 5 and
a concrete freshly created circle cutout starts at radius 10. -/
theorem cutout_min_size_witness :
    5 ≤ (applyResize demoCutout 0 1 none none).radius ∧
    10 ≤ demoCutout.radius := by
  refine ⟨cutout_min_size.1 demoCutout 0 1 none none, ?_⟩
  exact cutout_min_size.2.2.2.1 EditorTool.circle 0 0 1 demoCutout createCutout_demo

end Tracefinity
